import Mathlib

/-!
Verification of `MLMODELPY/Data_pre_processing.py`.

Shallow embedding of the data pre-processing pipeline: an affine
pixel-to-world transform and its inverse (the `affine` library semantics),
rasterio-style window bounds, Python `round` (half-to-even) on rationals,
numpy 2-D indexing with its failure condition, the per-date extractor loop,
the pandas concatenation over dates (which fails on an empty list of
frames), and the post-processing filters and normalization.

Numeric values are modelled as rationals; missing labels (pandas NaN in the
`Plant health` column) as `Option`.
-/

namespace DataPre

/-- An affine transform `| a b c ; d e f ; 0 0 1 |`, as in the `affine`
library used by rasterio (`dataset.transform`). -/
structure Affine where
  a : ℚ
  b : ℚ
  c : ℚ
  d : ℚ
  e : ℚ
  f : ℚ
deriving DecidableEq, Repr

/-- Composition of affine transforms (`affine.Affine.__mul__` on a matrix). -/
def Affine.mul (t s : Affine) : Affine :=
  ⟨t.a * s.a + t.b * s.d, t.a * s.b + t.b * s.e, t.a * s.c + t.b * s.f + t.c,
   t.d * s.a + t.e * s.d, t.d * s.b + t.e * s.e, t.d * s.c + t.e * s.f + t.f⟩

/-- Uniform scaling, `Affine.scale(z)`. -/
def Affine.scale (z : ℚ) : Affine := ⟨z, 0, 0, 0, z, 0⟩

/-- Application of an affine transform to a point
(`affine.Affine.__mul__` on a pair). -/
def Affine.apply (t : Affine) (x y : ℚ) : ℚ × ℚ :=
  (t.a * x + t.b * y + t.c, t.d * x + t.e * y + t.f)

/-- Determinant of the linear part. -/
def Affine.det (t : Affine) : ℚ := t.a * t.e - t.b * t.d

/-- Inverse affine transform (`~transform` in the `affine` library). -/
def Affine.inv (t : Affine) : Affine :=
  let ra := t.e / t.det
  let rb := -t.b / t.det
  let rd := -t.d / t.det
  let re := t.a / t.det
  ⟨ra, rb, -(ra * t.c + rb * t.f), rd, re, -(rd * t.c + re * t.f)⟩

/-- The transform adjuster `adjust_transform_for_zoom`: if the factor is
exactly 1.0 the transform is returned unchanged, otherwise it is composed
with a uniform scale. -/
def adjust_transform_for_zoom (transform : Affine) (zoom_factor : ℚ) : Affine :=
  if zoom_factor = 1 then transform
  else transform.mul (Affine.scale zoom_factor)

/-- The 4-tuple returned by `rasterio.windows.bounds`, indexed in the code
as `[0] = left, [1] = bottom, [2] = right, [3] = top`. -/
structure BoundsT where
  left : ℚ
  bottom : ℚ
  right : ℚ
  top : ℚ
deriving DecidableEq, Repr

/-- The call `rasterio.windows.bounds(Window(0, 0, w, h), t)`:
`left, bottom = t * (0, h)` and `right, top = t * (w, 0)`. -/
def windowBounds (t : Affine) (w h : ℕ) : BoundsT :=
  ⟨(t.apply 0 h).1, (t.apply 0 h).2, (t.apply w 0).1, (t.apply w 0).2⟩

/-- Python 3 `round` on a rational: nearest integer, ties to even. -/
def pyRound (q : ℚ) : ℤ :=
  let fl := ⌊q⌋
  let r := q - fl
  if r < 1 / 2 then fl
  else if 1 / 2 < r then fl + 1
  else if fl % 2 = 0 then fl else fl + 1

/-- One row of the ground-truth CSV (after stripping column whitespace):
`Longitude`, `Latitude`, `Chlorophyll`, `Plant health` (missing = `none`). -/
structure GTRow where
  longitude : ℚ
  latitude : ℚ
  chlorophyll : ℚ
  plantHealth : Option String
deriving DecidableEq, Repr

/-- The opened GeoTIFF dataset: dimensions, pixel-to-world transform, and
the three full-frame band arrays `dataset.read(1..3)` as functions of
(first index, second index). -/
structure Raster where
  width : ℕ
  height : ℕ
  transform : Affine
  red : ℕ → ℕ → ℚ
  green : ℕ → ℕ → ℚ
  blue : ℕ → ℕ → ℚ

/-- One output record appended to `training_data`. -/
structure SampleRecord where
  date : String
  pixelRow : ℤ
  pixelCol : ℤ
  red : ℚ
  green : ℚ
  blue : ℚ
  chlorophyll : ℚ
  plantHealth : Option String
deriving DecidableEq, Repr

/-- numpy 2-D integer indexing `arr[r, c]` on an array of shape `(h, w)`:
succeeds for `-h ≤ r < h` and `-w ≤ c < w` (negative indices wrap), raises
`IndexError` (= `none`) otherwise. -/
def npIndex (arr : ℕ → ℕ → ℚ) (h w : ℕ) (r c : ℤ) : Option ℚ :=
  if -(h : ℤ) ≤ r ∧ r < (h : ℤ) ∧ -(w : ℤ) ≤ c ∧ c < (w : ℤ) then
    some (arr (if r < 0 then (r + h).toNat else r.toNat)
              (if c < 0 then (c + w).toNat else c.toNat))
  else none

/-- The adjusted transform computed at the top of `process_geotiff_and_gt`. -/
def adjTransform (ds : Raster) (zoom_factor : ℚ) : Affine :=
  adjust_transform_for_zoom ds.transform zoom_factor

/-- The adjusted bounds computed from a zero-origin full-size window. -/
def adjBounds (ds : Raster) (zoom_factor : ℚ) : BoundsT :=
  windowBounds (adjTransform ds zoom_factor) ds.width ds.height

/-- The fractional pixel pair of line 65,
`pixel_row, pixel_col = ~transform * (utm_x, utm_y)`: `pixel_row` receives
the FIRST component of the inverse-transform image of the point. -/
def fracPixel (transform : Affine) (utm : ℚ × ℚ) : ℚ × ℚ :=
  (Affine.inv transform).apply utm.1 utm.2

/-- One iteration of the row loop in `process_geotiff_and_gt`: bounds
check, inverse-transform pixel mapping, rounding, dimension check, band
sampling with the `IndexError` skip; `none` means the row is skipped. -/
def processRow (ds : Raster) (transform : Affine) (adjusted_bounds : BoundsT)
    (date : String) (utm : ℚ × ℚ) (row : GTRow) : Option SampleRecord :=
  if adjusted_bounds.left ≤ utm.1 ∧ utm.1 ≤ adjusted_bounds.right ∧
     adjusted_bounds.bottom ≤ utm.2 ∧ utm.2 ≤ adjusted_bounds.top then
    if 0 ≤ pyRound (fracPixel transform utm).1 ∧
       pyRound (fracPixel transform utm).1 < (ds.height : ℤ) ∧
       0 ≤ pyRound (fracPixel transform utm).2 ∧
       pyRound (fracPixel transform utm).2 < (ds.width : ℤ) then
      match npIndex ds.red ds.height ds.width
              (pyRound (fracPixel transform utm).1)
              (pyRound (fracPixel transform utm).2),
            npIndex ds.green ds.height ds.width
              (pyRound (fracPixel transform utm).1)
              (pyRound (fracPixel transform utm).2),
            npIndex ds.blue ds.height ds.width
              (pyRound (fracPixel transform utm).1)
              (pyRound (fracPixel transform utm).2) with
      | some rv, some gv, some bv =>
          some ⟨date, pyRound (fracPixel transform utm).1,
                pyRound (fracPixel transform utm).2, rv, gv, bv,
                row.chlorophyll, row.plantHealth⟩
      | _, _, _ => none
    else none
  else none

/-- `process_geotiff_and_gt`: reproject every row via the pyproj
transformer `proj` (longitude, latitude ↦ UTM X, Y), then run the row loop
in table order, collecting the emitted records. -/
def process_geotiff_and_gt (ds : Raster) (proj : ℚ → ℚ → ℚ × ℚ)
    (gt_data : List GTRow) (date : String) (zoom_factor : ℚ) :
    List SampleRecord :=
  gt_data.filterMap fun row =>
    processRow ds (adjTransform ds zoom_factor) (adjBounds ds zoom_factor)
      date (proj row.longitude row.latitude) row

/-- Concatenation `pd.concat` over a list of frames: raises `ValueError`
(= `none`) when the list is empty, otherwise concatenates in order. -/
def pdConcat {α : Type} (ts : List (List α)) : Option (List α) :=
  if ts.isEmpty then none else some ts.flatten

/-- The dataset assembler `create_training_dataset`: run the extractor for
each date in order (`rasters`, `projs`, `gts` give the per-date raster,
reprojection and ground-truth table read from the conventional paths) and
concatenate. -/
def create_training_dataset (rasters : String → Raster)
    (projs : String → ℚ → ℚ → ℚ × ℚ) (gts : String → List GTRow)
    (dates : List String) (zoom_factor : ℚ) : Option (List SampleRecord) :=
  pdConcat (dates.map fun date =>
    process_geotiff_and_gt (rasters date) (projs date) (gts date) date
      zoom_factor)

/-- In-place normalization `training_dataset[['Red','Green','Blue']] /= 255.0`
on one record. -/
def normalizeRGB (rec : SampleRecord) : SampleRecord :=
  { rec with red := rec.red / 255, green := rec.green / 255,
             blue := rec.blue / 255 }

/-- The post-processing block: drop records with any zero channel, drop
records with a missing `Plant Health` label, then normalize channels. -/
def cleanDataset (t : List SampleRecord) : List SampleRecord :=
  ((t.filter fun rec =>
      decide (rec.red ≠ 0 ∧ rec.green ≠ 0 ∧ rec.blue ≠ 0)).filter
    fun rec => rec.plantHealth.isSome).map normalizeRGB

/-- All inputs of one pipeline run. -/
structure PipelineInput where
  rasters : String → Raster
  projs : String → ℚ → ℚ → ℚ × ℚ
  gts : String → List GTRow
  dates : List String
  zoom_factor : ℚ

/-- The whole pipeline: assemble across dates, then clean and normalize;
this is the table persisted to `cleaned_training_data.csv`. -/
def runPipeline (inp : PipelineInput) : Option (List SampleRecord) :=
  (create_training_dataset inp.rasters inp.projs inp.gts inp.dates
    inp.zoom_factor).map cleanDataset

/-- The record the loop appends for an in-bounds point: the rounded pixel
pair, the three band samples there, and the row's label fields. -/
def emittedRecord (ds : Raster) (transform : Affine) (date : String)
    (utm : ℚ × ℚ) (row : GTRow) : SampleRecord :=
  ⟨date, pyRound (fracPixel transform utm).1, pyRound (fracPixel transform utm).2,
   ds.red (pyRound (fracPixel transform utm).1).toNat
     (pyRound (fracPixel transform utm).2).toNat,
   ds.green (pyRound (fracPixel transform utm).1).toNat
     (pyRound (fracPixel transform utm).2).toNat,
   ds.blue (pyRound (fracPixel transform utm).1).toNat
     (pyRound (fracPixel transform utm).2).toNat,
   row.chlorophyll, row.plantHealth⟩

/-- Concrete 10x10 raster with transform {a=1,b=0,c=0,d=0,e=-1,f=10} and
constant bands; its adjusted bounds at zoom 1 are (0, 0)-(10, 10). -/
def ds0 : Raster :=
  ⟨10, 10, ⟨1, 0, 0, 0, -1, 10⟩, fun _ _ => 7, fun _ _ => 8, fun _ _ => 9⟩

/-- Identity reprojection used for concrete instances. -/
def proj0 : ℚ → ℚ → ℚ × ℚ := fun lon lat => (lon, lat)

/-- Concrete ground-truth row projecting to (5.4, 5.4). -/
def row0 : GTRow := ⟨27 / 5, 27 / 5, 3, some "good"⟩

/-- Concrete ground-truth row projecting to (-1, -1). -/
def row1 : GTRow := ⟨-1, -1, 2, some "weak"⟩

/-- Concrete sample record with nonzero channels and a present label. -/
def sr0 : SampleRecord := ⟨"d", 5, 5, 10, 20, 30, 3, some "good"⟩

/-- Concrete full-pipeline input. -/
def inp0 : PipelineInput :=
  ⟨fun _ => ds0, fun _ => proj0, fun _ => [row0], ["09.20.2024"], 1⟩

/-! Helper lemmas. -/

/-- numpy indexing with both indices in the non-negative valid range
returns the array entry. -/
lemma npIndex_of_nonneg (arr : ℕ → ℕ → ℚ) (h w : ℕ) (r c : ℤ)
    (hr0 : 0 ≤ r) (hrh : r < (h : ℤ)) (hc0 : 0 ≤ c) (hcw : c < (w : ℤ)) :
    npIndex arr h w r c = some (arr r.toNat c.toNat) := by
  unfold npIndex
  rw [if_pos ⟨le_trans (neg_nonpos.mpr (Int.ofNat_nonneg h)) hr0, hrh,
      le_trans (neg_nonpos.mpr (Int.ofNat_nonneg w)) hc0, hcw⟩]
  rw [if_neg (not_lt.mpr hr0), if_neg (not_lt.mpr hc0)]

/-- A row that passes the bounds check and the dimension check is emitted
as the sampled record. -/
lemma processRow_inbounds_eq (ds : Raster) (transform : Affine)
    (adjusted_bounds : BoundsT) (date : String) (utm : ℚ × ℚ) (row : GTRow)
    (hb : adjusted_bounds.left ≤ utm.1 ∧ utm.1 ≤ adjusted_bounds.right ∧
      adjusted_bounds.bottom ≤ utm.2 ∧ utm.2 ≤ adjusted_bounds.top)
    (hd : 0 ≤ pyRound (fracPixel transform utm).1 ∧
      pyRound (fracPixel transform utm).1 < (ds.height : ℤ) ∧
      0 ≤ pyRound (fracPixel transform utm).2 ∧
      pyRound (fracPixel transform utm).2 < (ds.width : ℤ)) :
    processRow ds transform adjusted_bounds date utm row =
      some (emittedRecord ds transform date utm row) := by
  unfold processRow
  rw [if_pos hb, if_pos hd,
      npIndex_of_nonneg _ _ _ _ _ hd.1 hd.2.1 hd.2.2.1 hd.2.2.2,
      npIndex_of_nonneg _ _ _ _ _ hd.1 hd.2.1 hd.2.2.1 hd.2.2.2,
      npIndex_of_nonneg _ _ _ _ _ hd.1 hd.2.1 hd.2.2.1 hd.2.2.2]
  rfl

/-! Concrete evaluation lemmas for the fixtures. -/

lemma adjBounds_ds0_eq : adjBounds ds0 1 = ⟨0, 0, 10, 10⟩ := by
  norm_num [adjBounds, adjTransform, adjust_transform_for_zoom, windowBounds,
    Affine.apply, ds0]

lemma fracPixel_ds0_eq :
    fracPixel (adjTransform ds0 1) (27 / 5, 27 / 5) = (27 / 5, 23 / 5) := by
  norm_num [fracPixel, adjTransform, adjust_transform_for_zoom, Affine.inv,
    Affine.det, Affine.apply, ds0, Prod.ext_iff]

lemma floor_27_5 : ⌊(27 : ℚ) / 5⌋ = 5 := by
  rw [Int.floor_eq_iff]
  norm_num

lemma floor_23_5 : ⌊(23 : ℚ) / 5⌋ = 4 := by
  rw [Int.floor_eq_iff]
  norm_num

lemma pyRound_27_5 : pyRound (27 / 5) = 5 := by
  simp only [pyRound, floor_27_5]
  norm_num

lemma pyRound_23_5 : pyRound (23 / 5) = 5 := by
  simp only [pyRound, floor_23_5]
  norm_num

lemma ds0_strict_bounds :
    (adjBounds ds0 1).left < 27 / 5 ∧ (27 : ℚ) / 5 < (adjBounds ds0 1).right ∧
    (adjBounds ds0 1).bottom < 27 / 5 ∧ (27 : ℚ) / 5 < (adjBounds ds0 1).top := by
  rw [adjBounds_ds0_eq]
  norm_num

lemma ds0_pixel_facts :
    0 ≤ pyRound (fracPixel (adjTransform ds0 1) (27 / 5, 27 / 5)).1 ∧
    pyRound (fracPixel (adjTransform ds0 1) (27 / 5, 27 / 5)).1 <
      (ds0.height : ℤ) ∧
    0 ≤ pyRound (fracPixel (adjTransform ds0 1) (27 / 5, 27 / 5)).2 ∧
    pyRound (fracPixel (adjTransform ds0 1) (27 / 5, 27 / 5)).2 <
      (ds0.width : ℤ) := by
  rw [fracPixel_ds0_eq]
  refine ⟨?_, ?_, ?_, ?_⟩ <;>
    simp only [pyRound_27_5, pyRound_23_5] <;> decide

lemma ds0_out_facts :
    ¬ ((adjBounds ds0 1).left ≤ -1 ∧ (-1 : ℚ) ≤ (adjBounds ds0 1).right ∧
      (adjBounds ds0 1).bottom ≤ -1 ∧ (-1 : ℚ) ≤ (adjBounds ds0 1).top) := by
  rw [adjBounds_ds0_eq]
  norm_num

lemma sr0_mem_clean : normalizeRGB sr0 ∈ cleanDataset [sr0] := by
  norm_num [cleanDataset, sr0, normalizeRGB]

lemma sr0_range : ∀ r ∈ [sr0], (0 ≤ r.red ∧ r.red ≤ 255) ∧
    (0 ≤ r.green ∧ r.green ≤ 255) ∧ (0 ≤ r.blue ∧ r.blue ≤ 255) := by
  intro r hr
  rw [List.mem_singleton] at hr
  subst hr
  norm_num [sr0]

/-! Theorems for the claims. -/

/-- C7: applying the transform adjuster with a zoom factor of exactly 1.0
returns the original transform unchanged. -/
theorem adjust_transform_zoom_one_identity (t : Affine) :
    adjust_transform_for_zoom t 1 = t := by
  simp [adjust_transform_for_zoom]

/-- C10: for an empty date list the assembler fails (`pd.concat` of zero
frames raises), and its result is defined exactly for non-empty date
lists. -/
theorem create_training_dataset_empty_dates_none
    (rasters : String → Raster) (projs : String → ℚ → ℚ → ℚ × ℚ)
    (gts : String → List GTRow) (dates : List String) (zoom_factor : ℚ) :
    create_training_dataset rasters projs gts [] zoom_factor = none ∧
    ((create_training_dataset rasters projs gts dates zoom_factor).isSome ↔
      dates ≠ []) := by
  constructor
  · rfl
  · unfold create_training_dataset pdConcat
    cases dates <;> simp

/-- C6: the assembled table for a date list starting with `d` is the table
extracted for `d` followed, in order, by the assembly of the remaining
dates (taken as empty when there are none): concatenation is in input-date
order, preserves row order, neither drops nor introduces dates, and
performs no deduplication. -/
theorem create_training_dataset_cons_decomposition
    (rasters : String → Raster) (projs : String → ℚ → ℚ → ℚ × ℚ)
    (gts : String → List GTRow) (d : String) (dates : List String)
    (zoom_factor : ℚ) :
    create_training_dataset rasters projs gts (d :: dates) zoom_factor =
      some (process_geotiff_and_gt (rasters d) (projs d) (gts d) d
              zoom_factor ++
        (create_training_dataset rasters projs gts dates zoom_factor).getD
          []) := by
  unfold create_training_dataset pdConcat
  cases dates <;> simp

/-- C1: a ground-truth row whose projected point lies strictly inside the
adjusted bounds and whose rounded pixel lies strictly inside the raster
dimensions is emitted as exactly one record — the extractor output around
that row is exactly the output for the prefix, then that one record with
the same date and the row's Chlorophyll and Plant health fields unchanged,
then the output for the suffix. -/
theorem inbounds_point_emits_unique_record (ds : Raster)
    (proj : ℚ → ℚ → ℚ × ℚ) (date : String) (zoom_factor : ℚ) (row : GTRow)
    (utm_x utm_y : ℚ)
    (hproj : proj row.longitude row.latitude = (utm_x, utm_y))
    (hx1 : (adjBounds ds zoom_factor).left < utm_x)
    (hx2 : utm_x < (adjBounds ds zoom_factor).right)
    (hy1 : (adjBounds ds zoom_factor).bottom < utm_y)
    (hy2 : utm_y < (adjBounds ds zoom_factor).top)
    (hr0 : 0 ≤ pyRound (fracPixel (adjTransform ds zoom_factor) (utm_x, utm_y)).1)
    (hrh : pyRound (fracPixel (adjTransform ds zoom_factor) (utm_x, utm_y)).1 <
      (ds.height : ℤ))
    (hc0 : 0 ≤ pyRound (fracPixel (adjTransform ds zoom_factor) (utm_x, utm_y)).2)
    (hcw : pyRound (fracPixel (adjTransform ds zoom_factor) (utm_x, utm_y)).2 <
      (ds.width : ℤ)) :
    processRow ds (adjTransform ds zoom_factor) (adjBounds ds zoom_factor)
        date (utm_x, utm_y) row =
      some (emittedRecord ds (adjTransform ds zoom_factor) date
        (utm_x, utm_y) row) ∧
    ∀ g1 g2 : List GTRow,
      process_geotiff_and_gt ds proj (g1 ++ row :: g2) date zoom_factor =
        process_geotiff_and_gt ds proj g1 date zoom_factor ++
          emittedRecord ds (adjTransform ds zoom_factor) date
            (utm_x, utm_y) row ::
            process_geotiff_and_gt ds proj g2 date zoom_factor := by
  have hmain : processRow ds (adjTransform ds zoom_factor)
      (adjBounds ds zoom_factor) date (utm_x, utm_y) row =
      some (emittedRecord ds (adjTransform ds zoom_factor) date
        (utm_x, utm_y) row) :=
    processRow_inbounds_eq ds (adjTransform ds zoom_factor)
      (adjBounds ds zoom_factor) date (utm_x, utm_y) row
      ⟨le_of_lt hx1, le_of_lt hx2, le_of_lt hy1, le_of_lt hy2⟩
      ⟨hr0, hrh, hc0, hcw⟩
  refine ⟨hmain, fun g1 g2 => ?_⟩
  unfold process_geotiff_and_gt
  rw [List.filterMap_append, List.filterMap_cons, hproj, hmain]

/-- C1 witness: the concrete raster `ds0` at point (5.4, 5.4). -/
theorem inbounds_point_emits_unique_record_witness :
    processRow ds0 (adjTransform ds0 1) (adjBounds ds0 1) "d"
        (27 / 5, 27 / 5) row0 =
      some (emittedRecord ds0 (adjTransform ds0 1) "d" (27 / 5, 27 / 5)
        row0) ∧
    process_geotiff_and_gt ds0 proj0 ([] ++ row0 :: []) "d" 1 =
      process_geotiff_and_gt ds0 proj0 [] "d" 1 ++
        emittedRecord ds0 (adjTransform ds0 1) "d" (27 / 5, 27 / 5) row0 ::
          process_geotiff_and_gt ds0 proj0 [] "d" 1 := by
  have h := inbounds_point_emits_unique_record ds0 proj0 "d" 1 row0
    (27 / 5) (27 / 5) rfl ds0_strict_bounds.1 ds0_strict_bounds.2.1
    ds0_strict_bounds.2.2.1 ds0_strict_bounds.2.2.2 ds0_pixel_facts.1
    ds0_pixel_facts.2.1 ds0_pixel_facts.2.2.1 ds0_pixel_facts.2.2.2
  exact ⟨h.1, h.2 [] []⟩

/-- C2 counterexample: for the adjusted transform {a=1,b=0,c=0,d=0,e=-1,f=10}
at world point (5.4, 5.4), the inverse-transform image is (5.4, 4.6), and
the code's fractional row value — the FIRST component, the one assigned to
`pixel_row` — equals 5.4, not 4.6 as the claim derives it. -/
theorem pixel_row_component_counterexample :
    (fracPixel (adjust_transform_for_zoom ⟨1, 0, 0, 0, -1, 10⟩ 1)
      (27 / 5, 27 / 5)).1 = 27 / 5 ∧
    (fracPixel (adjust_transform_for_zoom ⟨1, 0, 0, 0, -1, 10⟩ 1)
      (27 / 5, 27 / 5)).2 = 23 / 5 ∧
    ¬ (fracPixel (adjust_transform_for_zoom ⟨1, 0, 0, 0, -1, 10⟩ 1)
      (27 / 5, 27 / 5)).1 = 23 / 5 := by
  norm_num [fracPixel, adjust_transform_for_zoom, Affine.inv, Affine.det,
    Affine.apply]

/-- C2 amended: the pixel mapping applies the inverse of the adjusted
transform and assigns the first resulting component to the row and the
second to the column, rounding each; at transform {a=1,b=0,c=0,d=0,e=-1,f=10}
and point (5.4, 5.4) the components are (5.4, 4.6), both round to 5, and
the extractor emits pixel row 5 and column 5. -/
theorem pixel_mapping_inverse_components :
    fracPixel (adjTransform ds0 1) (27 / 5, 27 / 5) = (27 / 5, 23 / 5) ∧
    pyRound (fracPixel (adjTransform ds0 1) (27 / 5, 27 / 5)).1 = 5 ∧
    pyRound (fracPixel (adjTransform ds0 1) (27 / 5, 27 / 5)).2 = 5 ∧
    processRow ds0 (adjTransform ds0 1) (adjBounds ds0 1) "d"
        (27 / 5, 27 / 5) row0 =
      some ⟨"d", 5, 5, 7, 8, 9, 3, some "good"⟩ := by
  have hp := processRow_inbounds_eq ds0 (adjTransform ds0 1)
    (adjBounds ds0 1) "d" (27 / 5, 27 / 5) row0
    ⟨le_of_lt ds0_strict_bounds.1, le_of_lt ds0_strict_bounds.2.1,
     le_of_lt ds0_strict_bounds.2.2.1, le_of_lt ds0_strict_bounds.2.2.2⟩
    ds0_pixel_facts
  refine ⟨fracPixel_ds0_eq, ?_, ?_, ?_⟩
  · rw [fracPixel_ds0_eq]
    exact pyRound_27_5
  · rw [fracPixel_ds0_eq]
    exact pyRound_23_5
  · rw [hp]
    simp only [emittedRecord, fracPixel_ds0_eq]
    simp [pyRound_27_5, pyRound_23_5, ds0, row0]

/-- C3: a ground-truth row whose projected point fails the closed-interval
bounds check is skipped and contributes no record to the extractor
output. -/
theorem out_of_bounds_point_skipped (ds : Raster) (proj : ℚ → ℚ → ℚ × ℚ)
    (date : String) (zoom_factor : ℚ) (row : GTRow) (utm_x utm_y : ℚ)
    (g1 g2 : List GTRow)
    (hproj : proj row.longitude row.latitude = (utm_x, utm_y))
    (hout : ¬ ((adjBounds ds zoom_factor).left ≤ utm_x ∧
      utm_x ≤ (adjBounds ds zoom_factor).right ∧
      (adjBounds ds zoom_factor).bottom ≤ utm_y ∧
      utm_y ≤ (adjBounds ds zoom_factor).top)) :
    processRow ds (adjTransform ds zoom_factor) (adjBounds ds zoom_factor)
        date (utm_x, utm_y) row = none ∧
    process_geotiff_and_gt ds proj (g1 ++ row :: g2) date zoom_factor =
      process_geotiff_and_gt ds proj g1 date zoom_factor ++
        process_geotiff_and_gt ds proj g2 date zoom_factor := by
  have hmain : processRow ds (adjTransform ds zoom_factor)
      (adjBounds ds zoom_factor) date (utm_x, utm_y) row = none := by
    unfold processRow
    rw [if_neg hout]
  refine ⟨hmain, ?_⟩
  unfold process_geotiff_and_gt
  rw [List.filterMap_append, List.filterMap_cons, hproj, hmain]

/-- C3 witness: the point (-1, -1) against the bounds (0, 0)-(10, 10) of
`ds0` is dropped and never appears in the output. -/
theorem out_of_bounds_point_skipped_witness :
    processRow ds0 (adjTransform ds0 1) (adjBounds ds0 1) "d" (-1, -1)
        row1 = none ∧
    process_geotiff_and_gt ds0 proj0 ([] ++ row1 :: []) "d" 1 =
      process_geotiff_and_gt ds0 proj0 [] "d" 1 ++
        process_geotiff_and_gt ds0 proj0 [] "d" 1 :=
  out_of_bounds_point_skipped ds0 proj0 "d" 1 row1 (-1) (-1) [] [] rfl
    ds0_out_facts

/-- C9: for a pixel passing the dimension check (row in [0, height) and
column in [0, width)), indexing each full-frame band array succeeds and
returns the entry, so the `IndexError` branch is unreachable under that
precondition. -/
theorem npIndex_inbounds_succeeds (ds : Raster) (r c : ℤ) (hr0 : 0 ≤ r)
    (hrh : r < (ds.height : ℤ)) (hc0 : 0 ≤ c) (hcw : c < (ds.width : ℤ)) :
    npIndex ds.red ds.height ds.width r c = some (ds.red r.toNat c.toNat) ∧
    npIndex ds.green ds.height ds.width r c =
      some (ds.green r.toNat c.toNat) ∧
    npIndex ds.blue ds.height ds.width r c =
      some (ds.blue r.toNat c.toNat) :=
  ⟨npIndex_of_nonneg _ _ _ _ _ hr0 hrh hc0 hcw,
   npIndex_of_nonneg _ _ _ _ _ hr0 hrh hc0 hcw,
   npIndex_of_nonneg _ _ _ _ _ hr0 hrh hc0 hcw⟩

/-- C9 witness: pixel (5, 5) inside the 10x10 raster `ds0`. -/
theorem npIndex_inbounds_succeeds_witness :
    ((0 : ℤ) ≤ 5 ∧ (5 : ℤ) < (ds0.height : ℤ) ∧ (0 : ℤ) ≤ 5 ∧
      (5 : ℤ) < (ds0.width : ℤ)) ∧
    (npIndex ds0.red ds0.height ds0.width 5 5 =
        some (ds0.red (5 : ℤ).toNat (5 : ℤ).toNat) ∧
      npIndex ds0.green ds0.height ds0.width 5 5 =
        some (ds0.green (5 : ℤ).toNat (5 : ℤ).toNat) ∧
      npIndex ds0.blue ds0.height ds0.width 5 5 =
        some (ds0.blue (5 : ℤ).toNat (5 : ℤ).toNat)) :=
  ⟨by decide,
   npIndex_inbounds_succeeds ds0 5 5 (by decide) (by decide) (by decide)
     (by decide)⟩

/-- C4: after post-processing, every record in the persisted table has all
three channel values nonzero and a present plant-health label; records
violating either condition are removed. -/
theorem clean_no_zero_channels_no_missing_label (t : List SampleRecord)
    (rec : SampleRecord) (h : rec ∈ cleanDataset t) :
    rec.red ≠ 0 ∧ rec.green ≠ 0 ∧ rec.blue ≠ 0 ∧ rec.plantHealth.isSome := by
  unfold cleanDataset at h
  obtain ⟨rec0, h0, hEq⟩ := List.mem_map.mp h
  rw [List.mem_filter] at h0
  obtain ⟨h1, hPH⟩ := h0
  rw [List.mem_filter] at h1
  obtain ⟨-, hRGB⟩ := h1
  have hRGB' := of_decide_eq_true hRGB
  subst hEq
  simp only [normalizeRGB]
  exact ⟨div_ne_zero hRGB'.1 (by norm_num),
    div_ne_zero hRGB'.2.1 (by norm_num),
    div_ne_zero hRGB'.2.2 (by norm_num), hPH⟩

/-- C4 witness: the record `sr0` survives cleaning and satisfies the
invariant. -/
theorem clean_no_zero_channels_no_missing_label_witness :
    normalizeRGB sr0 ∈ cleanDataset [sr0] ∧
    ((normalizeRGB sr0).red ≠ 0 ∧ (normalizeRGB sr0).green ≠ 0 ∧
      (normalizeRGB sr0).blue ≠ 0 ∧ (normalizeRGB sr0).plantHealth.isSome) :=
  ⟨sr0_mem_clean,
   clean_no_zero_channels_no_missing_label [sr0] (normalizeRGB sr0)
     sr0_mem_clean⟩

/-- C5: if every assembled record carries raw 8-bit channel values in
[0, 255], then every record retained after post-processing has all three
normalized channel values in [0, 1]. -/
theorem clean_channels_in_unit_interval (t : List SampleRecord)
    (rec : SampleRecord)
    (hrange : ∀ r ∈ t, (0 ≤ r.red ∧ r.red ≤ 255) ∧
      (0 ≤ r.green ∧ r.green ≤ 255) ∧ (0 ≤ r.blue ∧ r.blue ≤ 255))
    (h : rec ∈ cleanDataset t) :
    (0 ≤ rec.red ∧ rec.red ≤ 1) ∧ (0 ≤ rec.green ∧ rec.green ≤ 1) ∧
      (0 ≤ rec.blue ∧ rec.blue ≤ 1) := by
  unfold cleanDataset at h
  obtain ⟨rec0, h0, hEq⟩ := List.mem_map.mp h
  rw [List.mem_filter] at h0
  obtain ⟨h1, -⟩ := h0
  rw [List.mem_filter] at h1
  obtain ⟨hmem, -⟩ := h1
  obtain ⟨hr, hg, hb⟩ := hrange rec0 hmem
  subst hEq
  simp only [normalizeRGB]
  exact ⟨⟨div_nonneg hr.1 (by norm_num), (div_le_one (by norm_num)).mpr hr.2⟩,
    ⟨div_nonneg hg.1 (by norm_num), (div_le_one (by norm_num)).mpr hg.2⟩,
    ⟨div_nonneg hb.1 (by norm_num), (div_le_one (by norm_num)).mpr hb.2⟩⟩

/-- C5 witness: the singleton table `[sr0]` has 8-bit channels and its
cleaned record lies in the unit range. -/
theorem clean_channels_in_unit_interval_witness :
    (∀ r ∈ [sr0], (0 ≤ r.red ∧ r.red ≤ 255) ∧
      (0 ≤ r.green ∧ r.green ≤ 255) ∧ (0 ≤ r.blue ∧ r.blue ≤ 255)) ∧
    ((0 ≤ (normalizeRGB sr0).red ∧ (normalizeRGB sr0).red ≤ 1) ∧
      (0 ≤ (normalizeRGB sr0).green ∧ (normalizeRGB sr0).green ≤ 1) ∧
      (0 ≤ (normalizeRGB sr0).blue ∧ (normalizeRGB sr0).blue ≤ 1)) :=
  ⟨sr0_range, clean_channels_in_unit_interval [sr0] (normalizeRGB sr0)
    sr0_range sr0_mem_clean⟩

/-- C8: the pipeline is a deterministic function of its inputs — two runs
over identical rasters, ground-truth tables, date lists and zoom factor
produce identical output tables. -/
theorem pipeline_deterministic (i1 i2 : PipelineInput) (h : i1 = i2) :
    runPipeline i1 = runPipeline i2 := by
  rw [h]

/-- C8 witness: two runs over the concrete input `inp0`. -/
theorem pipeline_deterministic_witness :
    inp0 = inp0 ∧ runPipeline inp0 = runPipeline inp0 :=
  ⟨rfl, pipeline_deterministic inp0 inp0 rfl⟩

end DataPre
